import Mathlib

/-!
Verification development for the easydo-hrms-mcp repository.

Shallow embedding of the core logic of the repository:
* `mcp_server/rbac.py` — multi-company RBAC filter construction, query
  rewriting, and sensitive-field masking;
* `mcp_server/tools/attendance.py` — per-day attendance classification and
  the month summary;
* `mcp_server/tools/salary.py` — salary-slip deduction arithmetic;
* `mcp_server/tools/employee.py` — calendar-month arithmetic and probation
  status;
* `mcp_server/auth.py` — user/company context and super-admin detection.

Machine integers are modelled as `Int`/`Nat`; Python `float` arithmetic on
monetary values and percentages is modelled over `ℚ`, with Python's
`round(x, n)` modelled as exact half-to-even rounding on rationals.
Python dicts with string keys are modelled as association lists (first
binding wins on lookup, as for a dict without duplicate keys).
-/

/-! ## Data model (`mcp_server/auth.py`) -/

/-- `CompanyContext` dataclass from `auth.py`: one company membership of a
principal. -/
structure CompanyContext where
  company_employee_id : Int
  company_id : Int
  company_name : String
  company_branch_id : Int
  branch_name : String
  role_id : Int
  designation : String
  attendance_count : Nat
  is_primary : Bool
deriving DecidableEq, Repr

/-- `UserContext` dataclass from `auth.py`. -/
structure UserContext where
  user_id : Int
  user_name : String
  phone : String
  companies : List CompanyContext
deriving DecidableEq, Repr

/-- `normalize_phone` from `auth.py`: strip surrounding whitespace, remove
spaces, dashes and plus signs, and keep the last 10 characters when at
least 10 remain. -/
def normalize_phone (phone : String) : String :=
  let p := ((phone.trim.replace " " "").replace "-" "").replace "+" ""
  if p.length ≥ 10 then p.drop (p.length - 10) else p

/-- `UserContext.is_super_admin` from `auth.py`: phone match against the
configured super-admin phone `sap` (the `SUPER_ADMIN_PHONE` environment
value, passed explicitly here); an empty phone on either side is never a
super admin. -/
def is_super_admin (sap : String) (ctx : UserContext) : Bool :=
  if ctx.phone = "" || sap = "" then false
  else normalize_phone ctx.phone = normalize_phone sap

/-- `UserContext.get_all_company_employee_ids` from `auth.py`. -/
def get_all_company_employee_ids (ctx : UserContext) : List Int :=
  ctx.companies.map (fun c => c.company_employee_id)

/-! ## RBAC filter construction (`mcp_server/rbac.py`) -/

/-- `_build_company_filter` from `rbac.py`: the SQL fragment for one
membership.  Role 1 (company admin) restricts by company, role 2 (branch
manager) by company and branch, any other role by the membership's own
employee-record id.  `pre` is the already-computed alias dot-string. -/
def build_company_filter (c : CompanyContext) (pre : String) : String :=
  if c.role_id = 1 then
    pre ++ "company_id = " ++ toString c.company_id
  else if c.role_id = 2 then
    "(" ++ pre ++ "company_id = " ++ toString c.company_id ++
      " AND " ++ pre ++ "company_branch_id = " ++ toString c.company_branch_id ++ ")"
  else
    pre ++ "company_employee_id = " ++ toString c.company_employee_id

/-- A candidate row, as seen by the access predicate: the three columns the
RBAC fragments constrain. -/
structure Row where
  company_id : Int
  company_branch_id : Int
  company_employee_id : Int
deriving DecidableEq, Repr

/-- Denotation of the per-membership SQL fragment built by
`build_company_filter` as a boolean predicate on a candidate row (the
three branches mirror the three branches of `_build_company_filter`). -/
def memberAllows (c : CompanyContext) (r : Row) : Bool :=
  if c.role_id = 1 then r.company_id = c.company_id
  else if c.role_id = 2 then
    r.company_id = c.company_id && r.company_branch_id = c.company_branch_id
  else r.company_employee_id = c.company_employee_id

/-- Denotation of the complete row-visibility predicate conjoined by
`apply_company_filter`: super admin is unrestricted, an empty membership
list denotes the appended `1=0` (always false), and otherwise the
`OR`-join of the per-membership fragments. -/
def scopeAllows (sap : String) (ctx : UserContext) (r : Row) : Bool :=
  if is_super_admin sap ctx then true
  else if ctx.companies.isEmpty then false
  else ctx.companies.any (fun c => memberAllows c r)

/-! ## Keyword search and query rewriting (`apply_company_filter`) -/

/-- Regex word character (`\w` over ASCII): letter, digit or underscore. -/
def isWordChar (c : Char) : Bool := c.isAlphanum || c = '_'

/-- Case-insensitive literal match of `w` as an initial segment of the
input; returns the rest of the input on success. -/
def matchChars : List Char → List Char → Option (List Char)
  | [], rest => some rest
  | _ :: _, [] => none
  | c :: cs, r :: rest => if c.toLower = r.toLower then matchChars cs rest else none

/-- Consume the maximal run of whitespace; returns its length and the
rest. -/
def dropWsCount : List Char → Nat × List Char
  | [] => (0, [])
  | c :: r =>
    if c.isWhitespace then
      let p := dropWsCount r
      (p.1 + 1, p.2)
    else (0, c :: r)

/-- Match the remaining words of a keyword pattern, each preceded by at
least one whitespace character (`\s+`), and require a word boundary
(`\b`) after the last word. -/
def tailAfterFirst : List (List Char) → List Char → Bool
  | [], rest =>
    match rest with
    | [] => true
    | c :: _ => !(isWordChar c)
  | w :: ws, rest =>
    let p := dropWsCount rest
    if p.1 = 0 then false
    else
      match matchChars w p.2 with
      | some r => tailAfterFirst ws r
      | none => false

/-- Word boundary before position `i` of `q`: start of string or a
non-word character right before (the patterns all start with a letter). -/
def boundaryBefore (q : List Char) (i : Nat) : Bool :=
  if i = 0 then true
  else
    match q.get? (i - 1) with
    | some c => !(isWordChar c)
    | none => true

/-- Whether the whole keyword pattern `words` (e.g. `GROUP` `BY`) matches
at position `i` of `q`, in the sense of the regex
`\bGROUP\s+BY\b` with `re.IGNORECASE`. -/
def kwMatchAt (q : List Char) (i : Nat) (words : List (List Char)) : Bool :=
  match words with
  | [] => false
  | w :: ws =>
    boundaryBefore q i &&
      (match matchChars w (q.drop i) with
       | some r => tailAfterFirst ws r
       | none => false)

/-- The four insertion keywords of `apply_company_filter`. -/
def kwGroupBy : List (List Char) := ["GROUP".data, "BY".data]

/-- `ORDER BY` pattern. -/
def kwOrderBy : List (List Char) := ["ORDER".data, "BY".data]

/-- `LIMIT` pattern. -/
def kwLimit : List (List Char) := ["LIMIT".data]

/-- `HAVING` pattern. -/
def kwHaving : List (List Char) := ["HAVING".data]

/-- Whether any of the four keyword patterns matches at position `i`. -/
def anyKwAt (q : List Char) (i : Nat) : Bool :=
  kwMatchAt q i kwGroupBy || kwMatchAt q i kwOrderBy ||
    kwMatchAt q i kwLimit || kwMatchAt q i kwHaving

/-- Scan positions `i, i+1, ...` (at most `fuel` of them) for the first
keyword match. -/
def firstMatchFrom (q : List Char) : Nat → Nat → Option Nat
  | 0, _ => none
  | fuel + 1, i => if anyKwAt q i then some i else firstMatchFrom q fuel (i + 1)

/-- Earliest position of any of the four keywords in `q` (the minimum of
the `re.search` starting positions computed by `apply_company_filter`). -/
def findKw (q : List Char) : Option Nat := firstMatchFrom q q.length 0

/-- Python `str.rstrip`: drop trailing whitespace. -/
def rstripL (l : List Char) : List Char :=
  (l.reverse.dropWhile Char.isWhitespace).reverse

/-- Lines 63–80 of `rbac.py` (`apply_company_filter`): insert
`" AND <filter_clause>"` immediately before the earliest keyword match
(right-stripping the text before it), or append it at the end when no
keyword occurs. -/
def insert_filter (base_query filter_clause : String) : String :=
  let q := base_query.data
  let pos :=
    match findKw q with
    | some i => i
    | none => q.length
  let before := String.mk (rstripL (q.take pos))
  let afterL := q.drop pos
  if afterL.isEmpty then before ++ " AND " ++ filter_clause
  else before ++ " AND " ++ filter_clause ++ " " ++ String.mk afterL

/-- `apply_company_filter` from `rbac.py`: super admin passes the query
through, an empty membership list appends `AND 1=0`, and otherwise the
`OR`-join of the per-membership fragments is inserted before any trailing
`GROUP BY` / `ORDER BY` / `LIMIT` / `HAVING` clause. -/
def apply_company_filter (sap : String) (ctx : UserContext)
    (base_query : String) (table_alias : String) : String :=
  if is_super_admin sap ctx then base_query
  else if ctx.companies.isEmpty then base_query ++ " AND 1=0"
  else
    let pre := if table_alias = "" then "" else table_alias ++ "."
    let company_filters := ctx.companies.map (fun c => build_company_filter c pre)
    let filter_clause :=
      match company_filters with
      | [f] => f
      | fs => "(" ++ String.intercalate " OR " fs ++ ")"
    insert_filter base_query filter_clause

/-! ## Sensitive-field masking (`mcp_server/rbac.py`) -/

/-- `SENSITIVE_FIELDS` from `rbac.py`. -/
def SENSITIVE_FIELDS : List String :=
  ["pan_number", "aadhar_card_number", "uan_number", "bank_account_number",
   "bank_ifsc_code", "personal_email", "emergency_contact_number"]

/-- `HIDDEN_VALUE` from `rbac.py`. -/
def HIDDEN_VALUE : String := "***HIDDEN***"

/-- `can_view_sensitive_fields` from `rbac.py`: super admin, or the target
employee id is one of the caller's own company-employee ids. -/
def can_view_sensitive_fields (sap : String) (ctx : UserContext) (target : Int) : Bool :=
  if is_super_admin sap ctx then true
  else (get_all_company_employee_ids ctx).contains target

/-- Python dict assignment `d[k] = v` on a key already present: replace
the binding for `k`, keeping position and every other binding. -/
def setKey (d : List (String × String)) (k v : String) : List (String × String) :=
  d.map (fun p => if p.1 = k then (k, v) else p)

/-- The masking loop of `filter_sensitive_fields`: for each sensitive
field present in the dict, overwrite its value with `HIDDEN_VALUE`. -/
def maskAll (fields : List String) (d : List (String × String)) : List (String × String) :=
  match fields with
  | [] => d
  | f :: fs => maskAll fs (if (d.lookup f).isSome then setKey d f HIDDEN_VALUE else d)

/-- `filter_sensitive_fields` from `rbac.py`: return the dict untouched
when the caller may view sensitive fields, otherwise a copy with every
present sensitive field replaced by `HIDDEN_VALUE`.  (Values are modelled
as strings; the update logic is value-agnostic.) -/
def filter_sensitive_fields (sap : String) (ctx : UserContext)
    (data : List (String × String)) (target : Int) : List (String × String) :=
  if can_view_sensitive_fields sap ctx target then data
  else maskAll SENSITIVE_FIELDS data

/-! ## Dates (proleptic Gregorian, as in Python `datetime.date`) -/

/-- A calendar date `(year, month, day)`; Python `datetime.date` compares
lexicographically on this triple. -/
structure SDate where
  year : Nat
  month : Nat
  day : Nat
deriving DecidableEq, Repr

/-- Python `calendar.isleap`. -/
def isleap (y : Nat) : Bool :=
  y % 4 = 0 && (y % 100 ≠ 0 || y % 400 = 0)

/-- `calendar.monthrange(y, m)[1]`: the number of days of month `m` of
year `y` (months outside 1–12 never arise for valid dates). -/
def daysInMonth (y m : Nat) : Nat :=
  if m = 2 then (if isleap y then 29 else 28)
  else if m = 4 ∨ m = 6 ∨ m = 9 ∨ m = 11 then 30
  else 31

/-- Days in year `y` before month `m` (Python `datetime._days_before_month`). -/
def daysBeforeMonth (y m : Nat) : Nat :=
  ∑ k ∈ Finset.range (m - 1), daysInMonth y (k + 1)

/-- Days before January 1 of year `y`
(Python `datetime._days_before_year`). -/
def days_before_year (y : Nat) : Nat :=
  365 * (y - 1) + (y - 1) / 4 - (y - 1) / 100 + (y - 1) / 400

/-- Python `datetime.date.toordinal`: day count with 0001-01-01 as day 1. -/
def toordinalNat (d : SDate) : Nat :=
  days_before_year d.year + daysBeforeMonth d.year d.month + d.day

/-- Python `date.weekday()` / `calendar.weekday`: 0 = Monday. -/
def pyWeekday (y m d : Nat) : Nat :=
  (toordinalNat ⟨y, m, d⟩ + 6) % 7

/-- Python `date <` (lexicographic on year, month, day). -/
def dateLt (a b : SDate) : Bool :=
  a.year < b.year ||
    (a.year = b.year && (a.month < b.month ||
      (a.month = b.month && a.day < b.day)))

/-- A date whose components are in range (year ≥ 1, month 1–12, day within
the month). -/
def validDate (d : SDate) : Prop :=
  1 ≤ d.year ∧ 1 ≤ d.month ∧ d.month ≤ 12 ∧ 1 ≤ d.day ∧ d.day ≤ daysInMonth d.year d.month

instance (d : SDate) : Decidable (validDate d) := by
  unfold validDate; infer_instance

/-! ## Rounding (Python `round`, half-to-even, modelled on `ℚ`) -/

/-- Round to the nearest integer, ties to even (Python `round` on exact
values). -/
def roundHalfEven (q : ℚ) : ℤ :=
  if q - ⌊q⌋ < 1/2 then ⌊q⌋
  else if 1/2 < q - ⌊q⌋ then ⌊q⌋ + 1
  else if ⌊q⌋ % 2 = 0 then ⌊q⌋ else ⌊q⌋ + 1

/-- Python `round(x, 1)` on exact rationals. -/
def pyRound1 (q : ℚ) : ℚ := (roundHalfEven (q * 10) : ℚ) / 10

/-- Python `round(x, 2)` on exact rationals. -/
def pyRound2 (q : ℚ) : ℚ := (roundHalfEven (q * 100) : ℚ) / 100

/-! ## Attendance day classifier (`mcp_server/tools/attendance.py`) -/

/-- The six mutually exclusive day statuses produced by `get_attendance`. -/
inductive DayStatus where
  | before_doj
  | holiday
  | week_off
  | leave
  | present
  | absent
deriving DecidableEq, BEq, Repr

/-- Per-day aggregate of punch records (`attendance_by_day[day]`): the
late/half-day flags are `MAX` over the day's punches. -/
structure PunchAgg where
  is_late : Bool
  is_half_day : Bool
deriving DecidableEq, Repr

/-- The externally supplied facts `get_attendance` classifies a month
from: joining date, branch holiday calendar (day numbers of the month),
effective working-weekday set, approved-leave day numbers, and the per-day
punch aggregates. -/
structure AttendanceFacts where
  doj : Option SDate
  holidays : List Nat
  working_days : List Nat
  leave_days : List Nat
  attendance : List (Nat × PunchAgg)
deriving DecidableEq, Repr

/-- The per-day decision chain of the `get_attendance` loop (lines
509–578 of `attendance.py`): before-DOJ short-circuits, then holiday,
week-off, leave, present (a punch aggregate exists), absent. -/
def classifyDay (facts : AttendanceFacts) (year mon day : Nat) : DayStatus :=
  let beforeDoj :=
    match facts.doj with
    | some dj => dateLt ⟨year, mon, day⟩ dj
    | none => false
  if beforeDoj then DayStatus.before_doj
  else if facts.holidays.contains day then DayStatus.holiday
  else if !(facts.working_days.contains (pyWeekday year mon day)) then DayStatus.week_off
  else if facts.leave_days.contains day then DayStatus.leave
  else if (facts.attendance.lookup day).isSome then DayStatus.present
  else DayStatus.absent

/-- One entry of the `days` list (status and punch flags; the formatted
display fields of the source are omitted). -/
structure DayInfo where
  day : Nat
  status : DayStatus
  is_late : Bool
  is_half_day : Bool
deriving DecidableEq, Repr

/-- Build the `day_info` record for one day: flags are set only in the
`present` branch, from the day's punch aggregate. -/
def mkDayInfo (facts : AttendanceFacts) (year mon day : Nat) : DayInfo :=
  let st := classifyDay facts year mon day
  match st, facts.attendance.lookup day with
  | DayStatus.present, some ar => ⟨day, st, ar.is_late, ar.is_half_day⟩
  | _, _ => ⟨day, st, false, false⟩

/-- The `summary` dict accumulated by the classification loop. -/
structure AttSummary where
  total_days : Nat
  working_days : Nat
  present : Nat
  absent : Nat
  late : Nat
  half_day : Nat
  leave : Nat
  holiday : Nat
  week_off : Nat
  before_doj : Nat
  attendance_percentage : ℚ
deriving DecidableEq, Repr

/-- Accumulate the summary over the classified days: `working_days`
counts leave, present and absent days; `late`/`half_day` count present
days whose aggregate carries the flag; the percentage is
`round(present / working_days * 100, 1)` with a zero guard. -/
def summarize (last_day : Nat) (days : List DayInfo) : AttSummary :=
  let working := days.countP (fun di =>
    di.status == DayStatus.leave || di.status == DayStatus.present ||
      di.status == DayStatus.absent)
  let presentN := days.countP (fun di => di.status == DayStatus.present)
  { total_days := last_day
    working_days := working
    present := presentN
    absent := days.countP (fun di => di.status == DayStatus.absent)
    late := days.countP (fun di => di.status == DayStatus.present && di.is_late)
    half_day := days.countP (fun di => di.status == DayStatus.present && di.is_half_day)
    leave := days.countP (fun di => di.status == DayStatus.leave)
    holiday := days.countP (fun di => di.status == DayStatus.holiday)
    week_off := days.countP (fun di => di.status == DayStatus.week_off)
    before_doj := days.countP (fun di => di.status == DayStatus.before_doj)
    attendance_percentage :=
      if 0 < working then pyRound1 (((presentN : ℚ) / (working : ℚ)) * 100) else 0 }

/-- The last day of the classified range: today's day number for the
current month, otherwise the full month length. -/
def last_day_calc (today : SDate) (year mon : Nat) : Nat :=
  if year = today.year ∧ mon = today.month then today.day
  else daysInMonth year mon

/-- Result of the month classification: day records and summary. -/
structure MonthResult where
  days : List DayInfo
  summary : AttSummary
deriving DecidableEq, Repr

/-- The day-by-day classification loop of `get_attendance` over days
`1 .. last_day`, with the accumulated summary. -/
def classifyMonth (facts : AttendanceFacts) (today : SDate) (year mon : Nat) : MonthResult :=
  let ld := last_day_calc today year mon
  let days := (List.range' 1 ld).map (mkDayInfo facts year mon)
  ⟨days, summarize ld days⟩

/-! ### Claim-side day-status conditions (from the spec's priority list) -/

/-- Spec condition 1: the day precedes the date of joining. -/
def condBeforeDoj (facts : AttendanceFacts) (year mon day : Nat) : Bool :=
  match facts.doj with
  | some dj => dateLt ⟨year, mon, day⟩ dj
  | none => false

/-- Spec condition 2: the day appears in the branch holiday calendar. -/
def condHoliday (facts : AttendanceFacts) (day : Nat) : Bool :=
  facts.holidays.contains day

/-- Spec condition 3: the weekday is not in the effective working-day set. -/
def condWeekOff (facts : AttendanceFacts) (year mon day : Nat) : Bool :=
  !(facts.working_days.contains (pyWeekday year mon day))

/-- Spec condition 4: the day falls within an approved leave interval. -/
def condLeave (facts : AttendanceFacts) (day : Nat) : Bool :=
  facts.leave_days.contains day

/-- Spec condition 5: at least one punch record exists for the day. -/
def condPresent (facts : AttendanceFacts) (day : Nat) : Bool :=
  (facts.attendance.lookup day).isSome

/-- Modelled from the spec: the first-match-wins priority list
`before_doj, holiday, week_off, leave, present, absent` of §4.3. -/
def firstMatchStatus (facts : AttendanceFacts) (year mon day : Nat) : DayStatus :=
  if condBeforeDoj facts year mon day then DayStatus.before_doj
  else if condHoliday facts day then DayStatus.holiday
  else if condWeekOff facts year mon day then DayStatus.week_off
  else if condLeave facts day then DayStatus.leave
  else if condPresent facts day then DayStatus.present
  else DayStatus.absent

/-! ## Salary deduction arithmetic (`mcp_server/tools/salary.py`) -/

/-- `working_days = float(row.get("working_day_in_month") or
pay_period_days)`: a missing or zero (falsy) value falls back to the pay
period days. -/
def resolved_working_days (pay_period_days : ℤ) (working_day_in_month : Option ℚ) : ℚ :=
  match working_day_in_month with
  | some wdm => if wdm = 0 then (pay_period_days : ℚ) else wdm
  | none => (pay_period_days : ℚ)

/-- Lines 371–378 of `salary.py`: the daily rate and its basis string.
`month_total_day` divides the gross by the calendar pay-period days,
anything else by the (resolved) working days; a non-positive divisor
short-circuits to 0, and the quotient is rounded to 2 decimals. -/
def daily_rate_calc (gross : ℚ) (salary_calculation_type : String)
    (pay_period_days : ℤ) (working_day_in_month : Option ℚ) : ℚ × String :=
  if salary_calculation_type = "month_total_day" then
    (if 0 < pay_period_days then pyRound2 (gross / (pay_period_days : ℚ)) else 0,
     "calendar_days")
  else
    let wd := resolved_working_days pay_period_days working_day_in_month
    (if 0 < wd then pyRound2 (gross / wd) else 0, "working_days")

/-- Lines 344–369 of `salary.py`: pre-joining day count and the
joining-month flag, from the joining date and the pay period start
(`None`/unparseable dates yield `(0, false)`). -/
def pre_joining_calc (date_of_joining from_date : Option SDate) : ℤ × Bool :=
  match date_of_joining, from_date with
  | some dj, some fd =>
    if dj.year = fd.year ∧ dj.month = fd.month then ((dj.day : ℤ) - 1, true)
    else (0, false)
  | _, _ => (0, false)

/-- `absent_deduction = round(absent_days * daily_rate, 2)`. -/
def absent_deduction_calc (absent_days daily_rate : ℚ) : ℚ :=
  pyRound2 (absent_days * daily_rate)

/-- `half_day_deduction = round(half_days * 0.5 * daily_rate, 2)`. -/
def half_day_deduction_calc (half_days daily_rate : ℚ) : ℚ :=
  pyRound2 (half_days * (1/2) * daily_rate)

/-- `effective_absent_from_late`: floor-divide the late days by the
allowance when the allowance is positive and reached, else 0. -/
def effective_absent_from_late (late_days allowed_late : ℚ) : ℤ :=
  if 0 < allowed_late ∧ allowed_late ≤ late_days then ⌊late_days / allowed_late⌋
  else 0

/-- `late_deduction = round(effective_absent_from_late * daily_rate, 2)`
inside the same guard, else 0 (lines 384–396 of `salary.py`). -/
def late_deduction_calc (late_days allowed_late daily_rate : ℚ) : ℚ :=
  if 0 < allowed_late ∧ allowed_late ≤ late_days then
    pyRound2 ((⌊late_days / allowed_late⌋ : ℚ) * daily_rate)
  else 0

/-- The reported `actual_absent_days` field (line 452 of `salary.py`):
`max(0, absent_days - pre_joining_days)` in the joining month with a
positive pre-joining count, otherwise the raw `absent_days`. -/
def actual_absent_days_calc (absent_days : ℚ) (pre_joining_days : ℤ)
    (is_joining_month : Bool) : ℚ :=
  if is_joining_month ∧ 0 < pre_joining_days then
    max 0 (absent_days - (pre_joining_days : ℚ))
  else absent_days

/-! ## Probation date calculator (`mcp_server/tools/employee.py`) -/

/-- `_add_months` from `employee.py`: add `months` calendar months,
normalising the zero-based month by `// 12` / `% 12` and clamping the day
to the target month's length. -/
def add_months (d : SDate) (months : Nat) : SDate :=
  let m0 := d.month - 1 + months
  let y := d.year + m0 / 12
  let m := m0 % 12 + 1
  ⟨y, m, min d.day (daysInMonth y m)⟩

/-- `_calculate_probation_status` from `employee.py`: no joining date or
a non-positive probation length yields `(None, False, None)`; otherwise
the end date is `_add_months(doj, months)`, `is_overdue` compares it with
today, and `days_remaining` is the signed ordinal difference
(`(probation_end - today).days`). -/
def calculate_probation_status (doj : Option SDate) (probation_months : ℤ)
    (today : SDate) : Option SDate × Bool × Option ℤ :=
  match doj with
  | none => (none, false, none)
  | some dj =>
    if probation_months ≤ 0 then (none, false, none)
    else
      let e := add_months dj probation_months.toNat
      (some e, dateLt e today, some ((toordinalNat e : ℤ) - (toordinalNat today : ℤ)))

/-! ## Concrete fixtures used by witnesses and counterexamples -/

/-- A principal with no memberships and a phone that can never match the
super-admin phone. -/
def ctxEmpty : UserContext := ⟨1, "u", "", []⟩

/-- Admin-tier membership in company 1. -/
def compAdminC1 : CompanyContext := ⟨10, 1, "C", 5, "B", 1, "", 0, true⟩

/-- Branch-manager-tier membership in company 2, branch 7. -/
def compBmD7 : CompanyContext := ⟨11, 2, "D", 7, "B7", 2, "", 0, false⟩

/-- A multi-company principal: admin in company 1, branch manager in
company 2 / branch 7. -/
def ctxMulti : UserContext := ⟨2, "v", "", [compAdminC1, compBmD7]⟩

/-- Facts with day 5 both a holiday and a punch day (joining date Jan 3,
so day 5 is after joining). -/
def facts4 : AttendanceFacts :=
  ⟨some ⟨2025, 1, 3⟩, [5], [0, 1, 2, 3, 4, 5, 6], [], [(5, ⟨true, false⟩)]⟩

/-- January 2025 facts with three non-holiday days (1–3), one punch on
day 1: one present day out of three working days. -/
def facts5 : AttendanceFacts :=
  ⟨none, List.range' 4 28, [0, 1, 2, 3, 4], [], [(1, ⟨false, false⟩)]⟩

/-- Facts with a punch on each of days 1–3 and every weekday working. -/
def facts5w : AttendanceFacts :=
  ⟨none, [], [0, 1, 2, 3, 4, 5, 6], [],
   [(1, ⟨false, false⟩), (2, ⟨false, false⟩), (3, ⟨false, false⟩)]⟩

/-! # Theorems -/

/-! ## C1/C2 helper lemmas -/

theorem memberAllows_iff (c : CompanyContext) (r : Row) :
    memberAllows c r = true ↔
      ((c.role_id = 1 ∧ r.company_id = c.company_id) ∨
       (c.role_id = 2 ∧ r.company_id = c.company_id ∧
          r.company_branch_id = c.company_branch_id) ∨
       (c.role_id ≠ 1 ∧ c.role_id ≠ 2 ∧
          r.company_employee_id = c.company_employee_id)) := by
  unfold memberAllows
  split_ifs with h1 h2
  · simp [h1]
  · simp [h1, h2]
  · simp [h1, h2]

/-- C1: for every principal that is not super-admin and has zero company
memberships, `apply_company_filter` appends the always-false conjunct
`AND 1=0`, and the denoted predicate matches no row: every row source
filtered through it returns zero rows (fail-closed). -/
theorem c1_empty_memberships_fail_closed (sap : String) (ctx : UserContext)
    (base_query table_alias : String)
    (h1 : is_super_admin sap ctx = false) (h2 : ctx.companies = []) :
    apply_company_filter sap ctx base_query table_alias = base_query ++ " AND 1=0" ∧
      ∀ rows : List Row, rows.filter (fun r => scopeAllows sap ctx r) = [] := by
  constructor
  · simp [apply_company_filter, h1, h2]
  · intro rows
    simp [scopeAllows, h1, h2]

theorem c1_empty_memberships_fail_closed_witness :
    apply_company_filter "9999999999" ctxEmpty "SELECT 1" "" = "SELECT 1 AND 1=0" ∧
      [(⟨1, 1, 1⟩ : Row)].filter (fun r => scopeAllows "9999999999" ctxEmpty r) = [] := by
  have h := c1_empty_memberships_fail_closed "9999999999" ctxEmpty "SELECT 1" ""
    (by decide) rfl
  exact ⟨h.1, h.2 _⟩

/-- C2: for every non-super-admin principal with at least one membership,
the predicate conjoined by `apply_company_filter` accepts a row exactly
when some membership's clause accepts it — company match for an
admin-tier membership, company-and-branch match for a branch-manager-tier
membership, and own-employee-record match for any other (employee) tier;
a row satisfying none of the clauses is rejected. -/
theorem c2_or_of_membership_clauses (sap : String) (ctx : UserContext) (r : Row)
    (h1 : is_super_admin sap ctx = false) (h2 : ctx.companies ≠ []) :
    scopeAllows sap ctx r = true ↔
      ∃ c ∈ ctx.companies,
        ((c.role_id = 1 ∧ r.company_id = c.company_id) ∨
         (c.role_id = 2 ∧ r.company_id = c.company_id ∧
            r.company_branch_id = c.company_branch_id) ∨
         (c.role_id ≠ 1 ∧ c.role_id ≠ 2 ∧
            r.company_employee_id = c.company_employee_id)) := by
  have hne : ctx.companies.isEmpty = false := by
    cases hc : ctx.companies with
    | nil => exact absurd hc h2
    | cons a t => rfl
  simp [scopeAllows, h1, hne, List.any_eq_true, memberAllows_iff]

theorem c2_or_of_membership_clauses_witness :
    scopeAllows "9999999999" ctxMulti ⟨1, 99, 0⟩ = true ∧
      scopeAllows "9999999999" ctxMulti ⟨2, 8, 0⟩ = false := by
  have hacc := c2_or_of_membership_clauses "9999999999" ctxMulti ⟨1, 99, 0⟩
    (by decide) (by decide)
  have hrej := c2_or_of_membership_clauses "9999999999" ctxMulti ⟨2, 8, 0⟩
    (by decide) (by decide)
  refine ⟨hacc.mpr ⟨compAdminC1, by decide, by decide⟩, ?_⟩
  cases hb : scopeAllows "9999999999" ctxMulti ⟨2, 8, 0⟩ with
  | false => rfl
  | true =>
    have := hrej.mp hb
    revert this
    decide

/-! ## C3 helper lemmas: the keyword scanner finds the earliest match -/

theorem kwMatchAt_false_of_drop_nil (q : List Char) (i : Nat) (w : List Char)
    (ws : List (List Char)) (hw : w ≠ []) (hd : q.drop i = []) :
    kwMatchAt q i (w :: ws) = false := by
  unfold kwMatchAt
  rw [hd]
  cases w with
  | nil => exact absurd rfl hw
  | cons c cs => simp [matchChars]

theorem anyKwAt_false_of_ge (q : List Char) (i : Nat) (h : q.length ≤ i) :
    anyKwAt q i = false := by
  have hd : q.drop i = [] := List.drop_eq_nil_of_le h
  unfold anyKwAt kwGroupBy kwOrderBy kwLimit kwHaving
  rw [kwMatchAt_false_of_drop_nil q i _ _ (by decide) hd,
    kwMatchAt_false_of_drop_nil q i _ _ (by decide) hd,
    kwMatchAt_false_of_drop_nil q i _ _ (by decide) hd,
    kwMatchAt_false_of_drop_nil q i _ _ (by decide) hd]
  rfl

theorem firstMatchFrom_none_spec (q : List Char) :
    ∀ fuel i, firstMatchFrom q fuel i = none →
      ∀ j, i ≤ j → j < i + fuel → anyKwAt q j = false := by
  intro fuel
  induction fuel with
  | zero => intro i _ j h1 h2; omega
  | succ n ih =>
    intro i h j h1 h2
    unfold firstMatchFrom at h
    by_cases ha : anyKwAt q i = true
    · rw [if_pos ha] at h; exact absurd h (by simp)
    · rw [if_neg ha] at h
      rcases Nat.eq_or_lt_of_le h1 with he | hl
      · rw [← he]
        revert ha; cases anyKwAt q i <;> simp
      · exact ih (i + 1) h j hl (by omega)

theorem firstMatchFrom_some_spec (q : List Char) :
    ∀ fuel i k, firstMatchFrom q fuel i = some k →
      anyKwAt q k = true ∧ i ≤ k ∧ ∀ j, i ≤ j → j < k → anyKwAt q j = false := by
  intro fuel
  induction fuel with
  | zero => intro i k h; exact absurd h (by simp [firstMatchFrom])
  | succ n ih =>
    intro i k h
    unfold firstMatchFrom at h
    by_cases ha : anyKwAt q i = true
    · rw [if_pos ha] at h
      have hik : i = k := by simpa using h
      subst hik
      exact ⟨ha, Nat.le_refl i, fun j h1 h2 => by omega⟩
    · rw [if_neg ha] at h
      obtain ⟨hk, hik, hmin⟩ := ih (i + 1) k h
      refine ⟨hk, by omega, fun j h1 h2 => ?_⟩
      rcases Nat.eq_or_lt_of_le h1 with he | hl
      · rw [← he]
        revert ha; cases anyKwAt q i <;> simp
      · exact hmin j hl h2

/-- C3: the `AND`-clause is inserted immediately before the earliest
case-insensitive keyword match (`GROUP BY`, `ORDER BY`, `LIMIT`,
`HAVING`, with `\b`-bounded, `\s+`-separated words), right-stripping the
text before it; when no keyword occurs the clause is appended at the
right-stripped end; and the spec's concrete query rewrites as stated. -/
theorem c3_insert_before_earliest_keyword (base_query filter_clause : String) :
    ((∀ i, i < base_query.data.length → anyKwAt base_query.data i = false) →
       insert_filter base_query filter_clause
         = String.mk (rstripL base_query.data) ++ " AND " ++ filter_clause)
    ∧ (∀ i, anyKwAt base_query.data i = true →
        (∀ j, j < i → anyKwAt base_query.data j = false) →
        insert_filter base_query filter_clause
          = String.mk (rstripL (base_query.data.take i)) ++ " AND " ++ filter_clause
            ++ " " ++ String.mk (base_query.data.drop i))
    ∧ insert_filter "SELECT * FROM t WHERE x=1 GROUP BY y ORDER BY z" "t.c=5"
        = "SELECT * FROM t WHERE x=1 AND t.c=5 GROUP BY y ORDER BY z" := by
  refine ⟨?_, ?_, by decide⟩
  · intro hall
    have hfk : findKw base_query.data = none := by
      cases hf : findKw base_query.data with
      | none => rfl
      | some k =>
        obtain ⟨hk, -, -⟩ := firstMatchFrom_some_spec _ _ _ _ hf
        by_cases hkl : k < base_query.data.length
        · rw [hall k hkl] at hk; exact absurd hk (by simp)
        · rw [anyKwAt_false_of_ge _ _ (Nat.le_of_not_lt hkl)] at hk
          exact absurd hk (by simp)
    simp [insert_filter, hfk]
    rw [show base_query.length = base_query.data.length from rfl, List.take_length]
  · intro i hi hmin
    have hil : i < base_query.data.length := by
      by_contra hge
      rw [anyKwAt_false_of_ge _ _ (Nat.le_of_not_lt hge)] at hi
      exact absurd hi (by simp)
    have hfk : findKw base_query.data = some i := by
      cases hf : findKw base_query.data with
      | none =>
        have := firstMatchFrom_none_spec _ _ _ hf i (Nat.zero_le i) (by omega)
        rw [this] at hi
        exact absurd hi (by simp)
      | some k =>
        obtain ⟨hk, -, hkmin⟩ := firstMatchFrom_some_spec _ _ _ _ hf
        rcases Nat.lt_trichotomy k i with hlt | he | hgt
        · rw [hmin k hlt] at hk; exact absurd hk (by simp)
        · rw [he]
        · rw [hkmin i (Nat.zero_le i) hgt] at hi
          exact absurd hi (by simp)
    have hne : base_query.data.drop i ≠ [] := by
      intro hnil
      have hl : base_query.data.length ≤ i := List.drop_eq_nil_iff.mp hnil
      omega
    have hemp : (base_query.data.drop i).isEmpty = false := by
      cases hdrop : base_query.data.drop i with
      | nil => exact absurd hdrop hne
      | cons a t => rfl
    simp [insert_filter, hfk, hemp]

theorem c3_insert_before_earliest_keyword_witness :
    insert_filter "SELECT 1" "a=1" = "SELECT 1 AND a=1" := by
  exact (c3_insert_before_earliest_keyword "SELECT 1" "a=1").1 (by decide)

/-! ## C10 helper lemmas: masking preserves keys and rewrites lookups -/

theorem setKey_keys (d : List (String × String)) (k v : String) :
    (setKey d k v).map Prod.fst = d.map Prod.fst := by
  induction d with
  | nil => rfl
  | cons p t ih =>
    simp only [setKey, List.map_cons] at ih ⊢
    rw [show (List.map (fun p => if p.1 = k then (k, v) else p) t).map Prod.fst
        = t.map Prod.fst from ih]
    congr 1
    split <;> simp_all

theorem lookup_cons_pair (k' a b : String) (t : List (String × String)) :
    List.lookup k' ((a, b) :: t) = if k' = a then some b else List.lookup k' t := by
  by_cases h : k' = a
  · subst h; simp [List.lookup]
  · have hb : (k' == a) = false := beq_eq_false_iff_ne.mpr h
    simp [List.lookup, hb, h]

theorem lookup_setKey (d : List (String × String)) (k v k' : String) :
    (setKey d k v).lookup k' =
      if k' = k then (d.lookup k).map (fun _ => v) else d.lookup k' := by
  induction d with
  | nil => simp [setKey]
  | cons p t ih =>
    obtain ⟨a, b⟩ := p
    by_cases hak : a = k
    · subst hak
      rw [show setKey ((a, b) :: t) a v = (a, v) :: setKey t a v from by simp [setKey]]
      simp only [lookup_cons_pair]
      by_cases hk' : k' = a
      · simp [hk']
      · simp [hk', ih]
    · rw [show setKey ((a, b) :: t) k v = (a, b) :: setKey t k v from by
        simp [setKey, hak]]
      simp only [lookup_cons_pair]
      by_cases hk' : k' = a
      · have hkk : ¬ k' = k := by rw [hk']; exact hak
        simp [hk', hkk, hak]
      · by_cases hkk : k' = k
        · subst hkk
          simp [hk', ih, show ¬ k' = a from hk']
        · simp [hk', hkk, ih]

theorem maskAll_keys (fields : List String) (d : List (String × String)) :
    (maskAll fields d).map Prod.fst = d.map Prod.fst := by
  induction fields generalizing d with
  | nil => rfl
  | cons f fs ih =>
    simp only [maskAll]
    rw [ih]
    split
    · exact setKey_keys d f HIDDEN_VALUE
    · rfl

theorem lookup_maskAll (fields : List String) (d : List (String × String)) (k : String) :
    (maskAll fields d).lookup k =
      if k ∈ fields ∧ (d.lookup k).isSome = true then some HIDDEN_VALUE
      else d.lookup k := by
  induction fields generalizing d with
  | nil => simp [maskAll]
  | cons f fs ih =>
    by_cases hf : (d.lookup f).isSome = true
    · rw [show maskAll (f :: fs) d = maskAll fs (setKey d f HIDDEN_VALUE) from by
        simp [maskAll, hf]]
      rw [ih, lookup_setKey]
      by_cases hkf : k = f
      · subst hkf
        obtain ⟨w, hw⟩ := Option.isSome_iff_exists.mp hf
        simp [hw]
      · rw [if_neg hkf]
        by_cases hm : k ∈ fs ∧ (List.lookup k d).isSome = true
        · rw [if_pos hm, if_pos ⟨List.mem_cons_of_mem f hm.1, hm.2⟩]
        · rw [if_neg hm, if_neg ?_]
          intro hc
          rcases List.mem_cons.mp hc.1 with he | hm2
          · exact hkf he
          · exact hm ⟨hm2, hc.2⟩
    · rw [show maskAll (f :: fs) d = maskAll fs d from by simp [maskAll, hf]]
      rw [ih]
      have hfl : (List.lookup f d).isSome = false := by
        revert hf; cases (List.lookup f d).isSome <;> simp
      by_cases hkf : k = f
      · subst hkf
        rw [if_neg (by simp [hfl]), if_neg (by simp [hfl])]
      · by_cases hm : k ∈ fs ∧ (List.lookup k d).isSome = true
        · rw [if_pos hm, if_pos ⟨List.mem_cons_of_mem f hm.1, hm.2⟩]
        · rw [if_neg hm, if_neg ?_]
          intro hc
          rcases List.mem_cons.mp hc.1 with he | hm2
          · exact hkf he
          · exact hm ⟨hm2, hc.2⟩

/-- C10: `filter_sensitive_fields` returns the data unchanged when the
caller is super-admin or the target id is one of the caller's own
company-employee ids; otherwise the result keeps every key (and, being a
pure function of an immutable association list, leaves the input itself
untouched), maps every present key of `SENSITIVE_FIELDS` to
`***HIDDEN***`, and maps every other key to its original value. -/
theorem c10_filter_sensitive_fields (sap : String) (ctx : UserContext)
    (data : List (String × String)) (target : Int) :
    (can_view_sensitive_fields sap ctx target = true ↔
       (is_super_admin sap ctx = true ∨ target ∈ get_all_company_employee_ids ctx))
    ∧ (can_view_sensitive_fields sap ctx target = true →
        filter_sensitive_fields sap ctx data target = data)
    ∧ (can_view_sensitive_fields sap ctx target = false →
        (filter_sensitive_fields sap ctx data target).map Prod.fst = data.map Prod.fst
        ∧ ∀ k : String,
            (filter_sensitive_fields sap ctx data target).lookup k =
              if k ∈ SENSITIVE_FIELDS ∧ (data.lookup k).isSome = true
              then some HIDDEN_VALUE else data.lookup k) := by
  refine ⟨?_, ?_, ?_⟩
  · unfold can_view_sensitive_fields
    by_cases h : is_super_admin sap ctx = true
    · simp [h]
    · simp [h, List.elem_iff]
  · intro h
    simp [filter_sensitive_fields, h]
  · intro h
    constructor
    · simp [filter_sensitive_fields, h, maskAll_keys]
    · intro k
      simp [filter_sensitive_fields, h, lookup_maskAll]

theorem c10_filter_sensitive_fields_witness :
    (filter_sensitive_fields "" ctxEmpty [("pan_number", "ABC"), ("name", "Bob")] 42).lookup
        "pan_number" = some "***HIDDEN***"
    ∧ (filter_sensitive_fields "" ctxEmpty [("pan_number", "ABC"), ("name", "Bob")] 42).lookup
        "name" = some "Bob" := by
  have h := (c10_filter_sensitive_fields "" ctxEmpty
    [("pan_number", "ABC"), ("name", "Bob")] 42).2.2 (by decide)
  constructor
  · rw [h.2 "pan_number"]; decide
  · rw [h.2 "name"]; decide

/-! ## C9 helper lemmas: calendar arithmetic -/

theorem daysInMonth_pos (y m : Nat) : 1 ≤ daysInMonth y m := by
  unfold daysInMonth
  split_ifs <;> omega

theorem daysBeforeMonth_succ (y m : Nat) (h : 1 ≤ m) :
    daysBeforeMonth y (m + 1) = daysBeforeMonth y m + daysInMonth y m := by
  obtain ⟨m', rfl⟩ : ∃ m', m = m' + 1 := ⟨m - 1, by omega⟩
  unfold daysBeforeMonth
  simp only [Nat.add_sub_cancel]
  rw [Finset.sum_range_succ]

theorem daysBeforeMonth_mono (y : Nat) {a b : Nat} (h : a ≤ b) :
    daysBeforeMonth y a ≤ daysBeforeMonth y b := by
  unfold daysBeforeMonth
  exact Finset.sum_le_sum_of_subset (Finset.range_subset.mpr (by omega))

theorem daysBeforeMonth_13 (y : Nat) :
    daysBeforeMonth y 13 = if isleap y then 366 else 365 := by
  by_cases h : isleap y = true <;>
    simp [daysBeforeMonth, Finset.sum_range_succ, daysInMonth, h]

set_option maxHeartbeats 1000000 in
theorem days_before_year_succ (y : Nat) (h : 1 ≤ y) :
    days_before_year (y + 1) = days_before_year y + (if isleap y then 366 else 365) := by
  by_cases hl : isleap y = true
  · have hc : y % 4 = 0 ∧ (y % 100 ≠ 0 ∨ y % 400 = 0) := by simpa [isleap] using hl
    rw [if_pos hl]
    unfold days_before_year
    simp only [Nat.add_sub_cancel]
    rcases hc.2 with h100 | h400
    · have h4 := hc.1
      omega
    · have h4 := hc.1
      omega
  · have hc : y % 4 = 0 → y % 100 = 0 ∧ ¬y % 400 = 0 := by
      simpa [isleap] using hl
    rw [if_neg hl]
    unfold days_before_year
    simp only [Nat.add_sub_cancel]
    by_cases h4 : y % 4 = 0
    · have h100 := (hc h4).1
      have h400 := (hc h4).2
      omega
    · omega

theorem days_before_year_le (y : Nat) (h1 : 1 ≤ y) :
    ∀ y', y < y' → days_before_year y + daysBeforeMonth y 13 ≤ days_before_year y' := by
  intro y'
  induction y' with
  | zero => intro h; omega
  | succ n ih =>
    intro h
    rcases Nat.lt_or_ge y n with hlt | hge
    · have hstep : days_before_year n ≤ days_before_year (n + 1) := by
        rw [days_before_year_succ n (by omega)]
        split <;> omega
      have hy := ih hlt
      omega
    · have hyn : y = n := by omega
      subst hyn
      rw [days_before_year_succ y h1, daysBeforeMonth_13]

theorem ord_within_year (y m d : Nat) (hm1 : 1 ≤ m) (hm2 : m ≤ 12)
    (hd : d ≤ daysInMonth y m) :
    daysBeforeMonth y m + d ≤ daysBeforeMonth y 13 := by
  have h1 : daysBeforeMonth y m + d ≤ daysBeforeMonth y (m + 1) := by
    rw [daysBeforeMonth_succ y m hm1]; omega
  have h2 : daysBeforeMonth y (m + 1) ≤ daysBeforeMonth y 13 :=
    daysBeforeMonth_mono y (by omega)
  omega

theorem toordinal_strict_mono (a b : SDate) (ha : validDate a) (hb : validDate b)
    (hlt : dateLt a b = true) : toordinalNat a < toordinalNat b := by
  obtain ⟨ya, ma, da⟩ := a
  obtain ⟨yb, mb, db⟩ := b
  obtain ⟨ha1, ha2, ha3, ha4, ha5⟩ := ha
  obtain ⟨hb1, hb2, hb3, hb4, hb5⟩ := hb
  simp only [dateLt, Bool.or_eq_true, Bool.and_eq_true, decide_eq_true_eq] at hlt
  unfold toordinalNat
  dsimp only at *
  rcases hlt with hy | ⟨hy, hm | ⟨hm, hd⟩⟩
  · have hwy : daysBeforeMonth ya ma + da ≤ daysBeforeMonth ya 13 :=
      ord_within_year ya ma da ha2 ha3 ha5
    have hyy : days_before_year ya + daysBeforeMonth ya 13 ≤ days_before_year yb :=
      days_before_year_le ya ha1 yb hy
    have hz : 0 ≤ daysBeforeMonth yb mb := Nat.zero_le _
    omega
  · subst hy
    have h1 : daysBeforeMonth ya ma + da ≤ daysBeforeMonth ya (ma + 1) := by
      rw [daysBeforeMonth_succ ya ma ha2]; omega
    have h2 : daysBeforeMonth ya (ma + 1) ≤ daysBeforeMonth ya mb :=
      daysBeforeMonth_mono ya (by omega)
    omega
  · subst hy
    subst hm
    omega

theorem add_months_valid (d : SDate) (n : Nat) (hv : validDate d) :
    validDate (add_months d n) := by
  obtain ⟨h1, h2, h3, h4, h5⟩ := hv
  unfold add_months validDate
  dsimp only
  refine ⟨by omega, by omega, by omega, ?_, Nat.min_le_right _ _⟩
  exact Nat.le_min.mpr ⟨h4, daysInMonth_pos _ _⟩

/-- C9: `add_months` adds exactly `n` calendar months (the zero-based
month count advances by `n`) with the day clamped to the target month's
last valid day (Jan 31 + 1 month is Feb 28, or Feb 29 in a leap year),
and `calculate_probation_status` yields no end date for zero months,
while for positive months it yields `add_months doj months`, an overdue
flag `endDate < today`, and a signed day count `endDate - today` that is
negative once overdue. -/
theorem c9_add_months_probation_status :
    (∀ (d : SDate) (n : Nat), validDate d →
       ((add_months d n).year * 12 + ((add_months d n).month - 1)
           = d.year * 12 + (d.month - 1) + n)
       ∧ (add_months d n).day
           = min d.day (daysInMonth (add_months d n).year (add_months d n).month)
       ∧ validDate (add_months d n))
    ∧ add_months ⟨2025, 1, 31⟩ 1 = ⟨2025, 2, 28⟩
    ∧ add_months ⟨2024, 1, 31⟩ 1 = ⟨2024, 2, 29⟩
    ∧ (∀ (doj : Option SDate) (today : SDate),
        calculate_probation_status doj 0 today = (none, false, none))
    ∧ (∀ (dj today : SDate) (m : ℤ), 0 < m →
        calculate_probation_status (some dj) m today
          = (some (add_months dj m.toNat),
             dateLt (add_months dj m.toNat) today,
             some ((toordinalNat (add_months dj m.toNat) : ℤ)
               - (toordinalNat today : ℤ))))
    ∧ (∀ (dj today : SDate) (m : ℤ), 0 < m → validDate dj → validDate today →
        dateLt (add_months dj m.toNat) today = true →
        (toordinalNat (add_months dj m.toNat) : ℤ) - (toordinalNat today : ℤ) < 0) := by
  refine ⟨?_, by decide, by decide, ?_, ?_, ?_⟩
  · intro d n hv
    obtain ⟨h1, h2, h3, h4, h5⟩ := hv
    refine ⟨?_, rfl, add_months_valid d n ⟨h1, h2, h3, h4, h5⟩⟩
    unfold add_months
    dsimp only
    omega
  · intro doj today
    cases doj with
    | none => rfl
    | some dj => simp [calculate_probation_status]
  · intro dj today m hm
    have hneg : ¬ m ≤ 0 := by omega
    simp [calculate_probation_status, hneg]
  · intro dj today m hm hvd hvt hlt
    have hlt' := toordinal_strict_mono (add_months dj m.toNat) today
      (add_months_valid dj m.toNat hvd) hvt hlt
    omega

theorem c9_add_months_probation_status_witness :
    calculate_probation_status (some ⟨2024, 11, 15⟩) 2 ⟨2025, 3, 1⟩
        = (some ⟨2025, 1, 15⟩, true, some (-45))
    ∧ (toordinalNat (add_months ⟨2024, 11, 15⟩ (2 : ℤ).toNat) : ℤ)
        - (toordinalNat ⟨2025, 3, 1⟩ : ℤ) < 0 := by
  have h := c9_add_months_probation_status
  refine ⟨?_, ?_⟩
  · rw [h.2.2.2.2.1 ⟨2024, 11, 15⟩ ⟨2025, 3, 1⟩ 2 (by norm_num)]
    decide
  · exact h.2.2.2.2.2 ⟨2024, 11, 15⟩ ⟨2025, 3, 1⟩ 2 (by norm_num) (by decide) (by decide)
      (by decide)

/-! ## C4/C5 helper lemmas -/

theorem classify_eq_firstMatch (facts : AttendanceFacts) (y m d : Nat) :
    classifyDay facts y m d = firstMatchStatus facts y m d := rfl

theorem mkDayInfo_status (facts : AttendanceFacts) (y m d : Nat) :
    (mkDayInfo facts y m d).status = classifyDay facts y m d := by
  rcases hs : classifyDay facts y m d <;>
    rcases hl : facts.attendance.lookup d <;>
      simp [mkDayInfo, hs, hl]

theorem present_le_working (days : List DayInfo) :
    days.countP (fun di => di.status == DayStatus.present)
      ≤ days.countP (fun di =>
          di.status == DayStatus.leave || di.status == DayStatus.present ||
            di.status == DayStatus.absent) := by
  apply List.countP_mono_left
  intro a _ h
  cases ha : a.status <;> simp_all

theorem roundHalfEven_intCast (n : ℤ) : roundHalfEven (n : ℚ) = n := by
  unfold roundHalfEven
  rw [Int.floor_intCast]
  norm_num

theorem roundHalfEven_le (q : ℚ) (B : ℤ) (h : q ≤ (B : ℚ)) : roundHalfEven q ≤ B := by
  have hf : ⌊q⌋ ≤ B := by
    have hff := Int.floor_le_floor h
    rwa [Int.floor_intCast] at hff
  unfold roundHalfEven
  rcases lt_or_eq_of_le hf with hlt | heq
  · split_ifs <;> omega
  · have hfq : ((⌊q⌋ : ℚ)) = (B : ℚ) := by exact_mod_cast heq
    have h0 : q - (⌊q⌋ : ℚ) < 1/2 := by
      rw [hfq]
      linarith
    rw [if_pos h0, heq]

theorem pyRound1_le_100 (x : ℚ) (h : x ≤ 100) : pyRound1 x ≤ 100 := by
  unfold pyRound1
  have h10 : x * 10 ≤ ((1000 : ℤ) : ℚ) := by push_cast; linarith
  have hle := roundHalfEven_le (x * 10) 1000 h10
  have hc : (roundHalfEven (x * 10) : ℚ) ≤ (1000 : ℚ) := by exact_mod_cast hle
  linarith

theorem pyRound1_100 : pyRound1 (100 : ℚ) = 100 := by
  unfold pyRound1
  rw [show (100 : ℚ) * 10 = ((1000 : ℤ) : ℚ) by norm_num, roundHalfEven_intCast]
  norm_num

theorem summarize_props (ld : Nat) (days : List DayInfo) :
    ((summarize ld days).working_days = 0 →
       (summarize ld days).attendance_percentage = 0)
    ∧ (0 < (summarize ld days).working_days →
       (summarize ld days).attendance_percentage
         = pyRound1 ((((summarize ld days).present : ℚ)
             / ((summarize ld days).working_days : ℚ)) * 100))
    ∧ (summarize ld days).attendance_percentage ≤ 100
    ∧ ((summarize ld days).present = (summarize ld days).working_days →
       0 < (summarize ld days).working_days →
       (summarize ld days).attendance_percentage = 100) := by
  have hw : (summarize ld days).working_days
      = days.countP (fun di =>
          di.status == DayStatus.leave || di.status == DayStatus.present ||
            di.status == DayStatus.absent) := rfl
  have hp : (summarize ld days).present
      = days.countP (fun di => di.status == DayStatus.present) := rfl
  have hpct : (summarize ld days).attendance_percentage
      = if 0 < (summarize ld days).working_days then
          pyRound1 ((((summarize ld days).present : ℚ)
            / ((summarize ld days).working_days : ℚ)) * 100)
        else 0 := rfl
  refine ⟨?_, ?_, ?_, ?_⟩
  · intro h0
    rw [hpct, h0]
    simp
  · intro hpos
    rw [hpct, if_pos hpos]
  · rw [hpct]
    split_ifs with hpos
    · apply pyRound1_le_100
      have hle : (summarize ld days).present ≤ (summarize ld days).working_days := by
        rw [hw, hp]
        exact present_le_working days
      have hx : (((summarize ld days).present : ℚ)
          / ((summarize ld days).working_days : ℚ)) ≤ 1 := by
        rw [div_le_one (by exact_mod_cast hpos)]
        exact_mod_cast hle
      linarith
    · norm_num
  · intro heq hpos
    rw [hpct, if_pos hpos, heq]
    rw [div_self (by exact_mod_cast hpos.ne')]
    rw [one_mul]
    exact pyRound1_100

/-- C4: every day of the classified range receives exactly the status
given by the fixed first-match-wins priority order `before_doj, holiday,
week_off, leave, present, absent`; in particular a day that is in the
branch holiday calendar and has a punch record (and is not before the
joining date) is classified `holiday`, never `present`. -/
theorem c4_day_status_priority (facts : AttendanceFacts) (today : SDate) (y m : Nat) :
    ((classifyMonth facts today y m).days.map DayInfo.status
      = (List.range' 1 (last_day_calc today y m)).map (firstMatchStatus facts y m))
    ∧ (∀ d : Nat, condBeforeDoj facts y m d = false → condHoliday facts d = true →
        condPresent facts d = true → classifyDay facts y m d = DayStatus.holiday) := by
  constructor
  · show ((List.range' 1 (last_day_calc today y m)).map (mkDayInfo facts y m)).map
        DayInfo.status = _
    rw [List.map_map]
    apply List.map_congr_left
    intro d _
    show (mkDayInfo facts y m d).status = firstMatchStatus facts y m d
    rw [mkDayInfo_status, classify_eq_firstMatch]
  · intro d h1 h2 _
    rw [classify_eq_firstMatch]
    unfold firstMatchStatus
    rw [h1, h2]
    rfl

theorem c4_day_status_priority_witness :
    classifyDay facts4 2025 1 5 = DayStatus.holiday ∧ condPresent facts4 5 = true := by
  refine ⟨?_, by decide⟩
  exact (c4_day_status_priority facts4 ⟨2025, 2, 1⟩ 2025 1).2 5
    (by decide) (by decide) (by decide)

/-- C5 counterexample: in January 2025 with `facts5` (one punch on day 1,
days 4–31 holidays) the summary has 1 present day out of 3 working days,
but the reported percentage is `round(100/3, 1) = 33.3`, which is not
equal to `present_days / working_days * 100 = 100/3`. -/
theorem c5_attendance_percentage_counterexample :
    (classifyMonth facts5 ⟨2025, 3, 15⟩ 2025 1).summary.present = 1
    ∧ (classifyMonth facts5 ⟨2025, 3, 15⟩ 2025 1).summary.working_days = 3
    ∧ (classifyMonth facts5 ⟨2025, 3, 15⟩ 2025 1).summary.attendance_percentage
        ≠ ((1 : ℚ) / 3) * 100 := by
  have h1 : (classifyMonth facts5 ⟨2025, 3, 15⟩ 2025 1).summary.present = 1 := by decide
  have h2 : (classifyMonth facts5 ⟨2025, 3, 15⟩ 2025 1).summary.working_days = 3 := by
    decide
  refine ⟨h1, h2, ?_⟩
  have hprops := summarize_props (last_day_calc ⟨2025, 3, 15⟩ 2025 1)
    ((List.range' 1 (last_day_calc ⟨2025, 3, 15⟩ 2025 1)).map (mkDayInfo facts5 2025 1))
  have hsum : (classifyMonth facts5 ⟨2025, 3, 15⟩ 2025 1).summary
      = summarize (last_day_calc ⟨2025, 3, 15⟩ 2025 1)
          ((List.range' 1 (last_day_calc ⟨2025, 3, 15⟩ 2025 1)).map
            (mkDayInfo facts5 2025 1)) := rfl
  rw [hsum] at h1 h2 ⊢
  have hpct := hprops.2.1 (by rw [h2]; norm_num)
  rw [hpct, h1, h2]
  have harg : ((1 : ℕ) : ℚ) / ((3 : ℕ) : ℚ) * 100 = 100 / 3 := by push_cast; norm_num
  rw [harg]
  have hfl : ⌊(1000 : ℚ) / 3⌋ = 333 := by
    apply Int.floor_eq_iff.mpr
    constructor <;> norm_num
  have hrhe : roundHalfEven ((100 : ℚ) / 3 * 10) = 333 := by
    rw [show (100 : ℚ) / 3 * 10 = 1000 / 3 by norm_num]
    unfold roundHalfEven
    rw [hfl]
    norm_num
  unfold pyRound1
  rw [hrhe]
  norm_num

/-- C5 (amended): the attendance percentage equals
`present_days / working_days * 100` rounded half-to-even to one decimal
place, equals 0 when `working_days = 0` (no division error), never
exceeds 100, and equals exactly 100 when `present_days = working_days`
with positive working days. -/
theorem c5_attendance_percentage (facts : AttendanceFacts) (today : SDate) (y m : Nat) :
    ((classifyMonth facts today y m).summary.working_days = 0 →
       (classifyMonth facts today y m).summary.attendance_percentage = 0)
    ∧ (0 < (classifyMonth facts today y m).summary.working_days →
       (classifyMonth facts today y m).summary.attendance_percentage
         = pyRound1 ((((classifyMonth facts today y m).summary.present : ℚ)
             / ((classifyMonth facts today y m).summary.working_days : ℚ)) * 100))
    ∧ (classifyMonth facts today y m).summary.attendance_percentage ≤ 100
    ∧ ((classifyMonth facts today y m).summary.present
          = (classifyMonth facts today y m).summary.working_days →
       0 < (classifyMonth facts today y m).summary.working_days →
       (classifyMonth facts today y m).summary.attendance_percentage = 100) := by
  have hsum : (classifyMonth facts today y m).summary
      = summarize (last_day_calc today y m)
          ((List.range' 1 (last_day_calc today y m)).map (mkDayInfo facts y m)) := rfl
  rw [hsum]
  exact summarize_props _ _

theorem c5_attendance_percentage_witness :
    (classifyMonth facts5w ⟨2025, 1, 3⟩ 2025 1).summary.attendance_percentage = 100 := by
  exact (c5_attendance_percentage facts5w ⟨2025, 1, 3⟩ 2025 1).2.2.2 (by decide) (by decide)

/-! ## C6/C7/C8 helper lemmas -/

theorem pyRound2_intCast (n : ℤ) : pyRound2 ((n : ℚ)) = n := by
  unfold pyRound2
  rw [show ((n : ℚ) * 100) = ((n * 100 : ℤ) : ℚ) by push_cast; ring, roundHalfEven_intCast]
  push_cast
  ring

theorem pyRound2_centi (z : ℤ) : pyRound2 ((z : ℚ) / 100) = (z : ℚ) / 100 := by
  unfold pyRound2
  rw [show ((z : ℚ) / 100) * 100 = (z : ℚ) by field_simp, roundHalfEven_intCast]

theorem daily_rate_centi (gross : ℚ) (t : String) (p : ℤ) (w : Option ℚ) :
    ∃ z : ℤ, (daily_rate_calc gross t p w).1 = (z : ℚ) / 100 := by
  by_cases h1 : t = "month_total_day"
  · simp only [daily_rate_calc, if_pos h1]
    by_cases h2 : 0 < p
    · exact ⟨roundHalfEven (gross / (p : ℚ) * 100), by simp [h2, pyRound2]⟩
    · exact ⟨0, by simp [h2]⟩
  · simp only [daily_rate_calc, if_neg h1]
    by_cases h2 : 0 < resolved_working_days p w
    · exact ⟨roundHalfEven (gross / resolved_working_days p w * 100), by
        simp [h2, pyRound2]⟩
    · exact ⟨0, by simp [h2]⟩

/-- C7: the effective absent count from late days is
`floor(lateDays / allowedLateBeforePenalty)` when the threshold is
positive and reached, 0 otherwise; the late deduction is exactly that
count times the (already 2-decimal) daily rate; and with threshold 3 the
counts for 0–6 late days are 0,0,0,1,1,1,2. -/
theorem c7_late_deduction_thresholding :
    (∀ late allowed : ℚ, 0 < allowed → allowed ≤ late →
       effective_absent_from_late late allowed = ⌊late / allowed⌋)
    ∧ (∀ late allowed : ℚ, ¬(0 < allowed ∧ allowed ≤ late) →
       effective_absent_from_late late allowed = 0)
    ∧ (∀ (late allowed gross : ℚ) (t : String) (p : ℤ) (w : Option ℚ),
       late_deduction_calc late allowed (daily_rate_calc gross t p w).1
         = (effective_absent_from_late late allowed : ℚ) * (daily_rate_calc gross t p w).1)
    ∧ effective_absent_from_late 0 3 = 0
    ∧ effective_absent_from_late 1 3 = 0
    ∧ effective_absent_from_late 2 3 = 0
    ∧ effective_absent_from_late 3 3 = 1
    ∧ effective_absent_from_late 4 3 = 1
    ∧ effective_absent_from_late 5 3 = 1
    ∧ effective_absent_from_late 6 3 = 2 := by
  have hgen : ∀ late allowed : ℚ, 0 < allowed → allowed ≤ late →
      effective_absent_from_late late allowed = ⌊late / allowed⌋ := by
    intro late allowed h1 h2
    unfold effective_absent_from_late
    rw [if_pos ⟨h1, h2⟩]
  have hfl : ∀ a b : ℚ, ∀ z : ℤ, (z : ℚ) ≤ a / b → a / b < z + 1 →
      ⌊a / b⌋ = z := by
    intro a b z hz1 hz2
    exact Int.floor_eq_iff.mpr ⟨hz1, hz2⟩
  refine ⟨hgen, ?_, ?_, ?_, ?_, ?_, ?_, ?_, ?_, ?_⟩
  · intro late allowed h
    unfold effective_absent_from_late
    rw [if_neg h]
  · intro late allowed gross t p w
    obtain ⟨z, hz⟩ := daily_rate_centi gross t p w
    rw [hz]
    unfold late_deduction_calc effective_absent_from_late
    split_ifs with hc
    · rw [show ((⌊late / allowed⌋ : ℤ) : ℚ) * ((z : ℚ) / 100)
          = ((⌊late / allowed⌋ * z : ℤ) : ℚ) / 100 by push_cast; ring]
      exact pyRound2_centi _
    · norm_num
  · unfold effective_absent_from_late
    rw [if_neg (by norm_num)]
  · unfold effective_absent_from_late
    rw [if_neg (by norm_num)]
  · unfold effective_absent_from_late
    rw [if_neg (by norm_num)]
  · rw [hgen 3 3 (by norm_num) (by norm_num)]
    rw [show (3 : ℚ) / 3 = ((1 : ℤ) : ℚ) by norm_num]
    exact Int.floor_intCast 1
  · rw [hgen 4 3 (by norm_num) (by norm_num)]
    exact hfl 4 3 1 (by norm_num) (by norm_num)
  · rw [hgen 5 3 (by norm_num) (by norm_num)]
    exact hfl 5 3 1 (by norm_num) (by norm_num)
  · rw [hgen 6 3 (by norm_num) (by norm_num)]
    rw [show (6 : ℚ) / 3 = ((2 : ℤ) : ℚ) by norm_num]
    exact Int.floor_intCast 2

theorem c7_late_deduction_thresholding_witness :
    effective_absent_from_late 2 3 = 0 ∧ effective_absent_from_late 5 3 = ⌊(5 : ℚ) / 3⌋ :=
  ⟨c7_late_deduction_thresholding.2.1 2 3 (by norm_num),
   c7_late_deduction_thresholding.1 5 3 (by norm_num) (by norm_num)⟩

/-- C8 counterexample: with gross 100, calendar basis and 3 period days,
the code computes `round(100/3, 2) = 33.33`, which is not equal to
`100/3`: the claimed exact division does not hold (the quotient is
rounded to 2 decimals). -/
theorem c8_daily_rate_counterexample :
    (daily_rate_calc 100 "month_total_day" 3 none).1 ≠ (100 : ℚ) / 3 := by
  have h : (daily_rate_calc 100 "month_total_day" 3 none).1
      = pyRound2 ((100 : ℚ) / ((3 : ℤ) : ℚ)) := by
    simp [daily_rate_calc]
  rw [h]
  unfold pyRound2
  rw [show (100 : ℚ) / ((3 : ℤ) : ℚ) * 100 = 10000 / 3 by push_cast; ring]
  have hfl : ⌊(10000 : ℚ) / 3⌋ = 3333 := by
    apply Int.floor_eq_iff.mpr
    constructor <;> norm_num
  unfold roundHalfEven
  rw [hfl]
  norm_num

/-- C8 (amended): the daily rate is the gross divided by the calendar
pay-period days when the calculation type is `month_total_day` (reported
basis `calendar_days`) and by the resolved working days otherwise
(reported basis `working_days`), in each case rounded half-to-even to 2
decimal places; a non-positive selected divisor short-circuits the rate
to 0, so the division is never performed on a zero divisor and no
exception can arise. -/
theorem c8_daily_rate_division_guard (gross : ℚ) (t : String) (p : ℤ) (w : Option ℚ) :
    (t = "month_total_day" →
       (daily_rate_calc gross t p w).2 = "calendar_days"
       ∧ (0 < p → (daily_rate_calc gross t p w).1 = pyRound2 (gross / (p : ℚ)))
       ∧ (¬0 < p → (daily_rate_calc gross t p w).1 = 0))
    ∧ (t ≠ "month_total_day" →
       (daily_rate_calc gross t p w).2 = "working_days"
       ∧ (0 < resolved_working_days p w →
           (daily_rate_calc gross t p w).1
             = pyRound2 (gross / resolved_working_days p w))
       ∧ (¬0 < resolved_working_days p w → (daily_rate_calc gross t p w).1 = 0)) := by
  constructor
  · intro ht
    refine ⟨by simp [daily_rate_calc, ht], ?_, ?_⟩
    · intro hp
      simp [daily_rate_calc, ht, hp]
    · intro hp
      simp [daily_rate_calc, ht, hp]
  · intro ht
    refine ⟨by simp [daily_rate_calc, ht], ?_, ?_⟩
    · intro hp
      simp [daily_rate_calc, ht, hp]
    · intro hp
      simp [daily_rate_calc, ht, hp]

theorem c8_daily_rate_division_guard_witness :
    (daily_rate_calc 100 "month_total_day" 4 none).1 = pyRound2 ((100 : ℚ) / ((4 : ℤ) : ℚ))
    ∧ (daily_rate_calc 100 "per_working_day" 0 none).1 = 0 := by
  constructor
  · exact ((c8_daily_rate_division_guard 100 "month_total_day" 4 none).1 rfl).2.1
      (by norm_num)
  · exact ((c8_daily_rate_division_guard 100 "per_working_day" 0 none).2
      (by decide)).2.2 (by norm_num [resolved_working_days])

/-- C6: evaluation of the salary-slip deduction arithmetic at an employee
who joined on 2025-01-10 with a pay period starting 2025-01-01, 9
recorded absent days (all of them the pre-joining days 1–9), gross 3000
and 30 calendar period days.  The code computes `pre_joining_days = 9`
and reports `actual_absent_days = max(0, 9 - 9) = 0`, yet the deduction
amount is `round(absent_days * daily_rate, 2) = 9 * 100 = 900` — the raw
absent count including the pre-joining days, not the adjusted count. -/
theorem c6_absent_deduction_charges_pre_joining_days :
    pre_joining_calc (some ⟨2025, 1, 10⟩) (some ⟨2025, 1, 1⟩) = (9, true)
    ∧ (daily_rate_calc 3000 "month_total_day" 30 none).1 = 100
    ∧ absent_deduction_calc 9 ((daily_rate_calc 3000 "month_total_day" 30 none).1) = 900
    ∧ actual_absent_days_calc 9 9 true = 0 := by
  have hrate : (daily_rate_calc 3000 "month_total_day" 30 none).1 = 100 := by
    have h : (daily_rate_calc 3000 "month_total_day" 30 none).1
        = pyRound2 ((3000 : ℚ) / ((30 : ℤ) : ℚ)) := by
      simp [daily_rate_calc]
    rw [h, show (3000 : ℚ) / ((30 : ℤ) : ℚ) = ((100 : ℤ) : ℚ) by push_cast; norm_num,
      pyRound2_intCast]
    norm_num
  refine ⟨by decide, hrate, ?_, ?_⟩
  · rw [hrate]
    unfold absent_deduction_calc
    rw [show (9 : ℚ) * 100 = ((900 : ℤ) : ℚ) by push_cast; norm_num, pyRound2_intCast]
    norm_num
  · unfold actual_absent_days_calc
    rw [if_pos (by norm_num)]
    norm_num
